import Mathlib

/-!
Verification of the blobscan blob-propagation subsystem and block detail page.

Source-derived definitions embed:
- `packages/blob-propagator/src/blob-propagator.ts` (`createBlobPropagator`,
  `getBlobPropagator`);
- the block detail page (`totalBlockBlobSize`, the prev/next navigation hrefs,
  the displayed blob count);
- the `getAllOutputSchema` reference shape.

The propagation engine proper (BlobPropagator worker loop, BlobStorageManager,
reference store, backoff policy) is not part of the provided sources; those
parts are modelled from the specification and marked `Modelled from the spec:`
in their doc comments.
-/

namespace Blobscan

/-- A storage backend as seen by the storage manager: identified by its name. -/
structure BlobStorage where
  name : String
  deriving DecidableEq, Repr

/-- The storage manager's state: the active set of configured backends. -/
structure BlobStorageManager where
  storages : List BlobStorage
  deriving DecidableEq, Repr

/-- `getAllStorages` returns the active backend list. -/
def BlobStorageManager.getAllStorages (bsm : BlobStorageManager) : List BlobStorage :=
  bsm.storages

/-- Modelled from the spec: `registerBackend`/`addStorage` adds a backend to the
active set; it fails with a `ConfigurationError` if a backend of the same name
already exists. (The `BlobStorageManager.addStorage` implementation is not in
the provided sources.) -/
def BlobStorageManager.addStorage (bsm : BlobStorageManager) (s : BlobStorage) :
    Except String BlobStorageManager :=
  if bsm.storages.any (fun t => t.name == s.name) then
    Except.error "ConfigurationError"
  else
    Except.ok { storages := bsm.storages ++ [s] }

/-- The relevant fields of the process environment. -/
structure Env where
  REDIS_URI : String
  BLOB_PROPAGATOR_TMP_BLOB_STORAGE : String

/-- A blob propagator instance, as produced by `createBlobPropagator`: it
carries the storage manager and the name of the temporary blob storage. -/
structure BlobPropagator where
  blobStorageManager : BlobStorageManager
  tmpBlobStorage : String
  deriving DecidableEq, Repr

/-- Modelled from the spec: the `BlobPropagator` constructor (not in the
provided sources) treats the temporary/scratch backend as mandatory — its
absence from the storage manager is a fatal startup error. -/
def BlobPropagator.make (bsm : BlobStorageManager) (tmp : String) :
    Except String BlobPropagator :=
  if bsm.storages.any (fun t => t.name == tmp) then
    Except.ok { blobStorageManager := bsm, tmpBlobStorage := tmp }
  else
    Except.error ("Temporary blob storage not found: " ++ tmp)

/-- `createBlobPropagator` from `blob-propagator.ts`: when no storage with the
temporary-storage name is registered, it calls `createStorageFromEnv`; a
creation error is rethrown as a fatal error, a created storage is added to the
manager, and an absent result (`none`) is silently skipped. It then constructs
the `BlobPropagator`. `createStorageFromEnv` is passed as a function since its
behaviour depends on the environment. -/
def createBlobPropagator (env : Env)
    (createStorageFromEnv : String → Except String (Option BlobStorage))
    (bsm : BlobStorageManager) : Except String BlobPropagator :=
  let tmpName := env.BLOB_PROPAGATOR_TMP_BLOB_STORAGE
  let step : Except String BlobStorageManager :=
    if (bsm.getAllStorages.find? (fun storage => storage.name == tmpName)).isSome then
      Except.ok bsm
    else
      match createStorageFromEnv tmpName with
      | Except.error err =>
          Except.error ("Failed to create temporary blob storage: " ++ err)
      | Except.ok none => Except.ok bsm
      | Except.ok (some tmpStorage) =>
          match bsm.addStorage tmpStorage with
          | Except.error err =>
              Except.error ("Failed to create temporary blob storage: " ++ err)
          | Except.ok bsm' => Except.ok bsm'
  match step with
  | Except.error e => Except.error e
  | Except.ok bsm1 => BlobPropagator.make bsm1 tmpName

/-- `getBlobPropagator` from `blob-propagator.ts`: a memoising accessor over
the module-level `blobPropagator` variable, modelled by explicit state passing.
It returns the propagator together with the updated module state. -/
def getBlobPropagator (state : Option BlobPropagator) (env : Env)
    (createStorageFromEnv : String → Except String (Option BlobStorage))
    (bsm : BlobStorageManager) :
    Except String (BlobPropagator × Option BlobPropagator) :=
  match state with
  | some p => Except.ok (p, some p)
  | none =>
      match createBlobPropagator env createStorageFromEnv bsm with
      | Except.error err => Except.error err
      | Except.ok p => Except.ok (p, some p)

end Blobscan

namespace Blobscan.Page

/-- A blob as used by the block detail page: only its size matters here. -/
structure Blob where
  size : ℕ
  deriving DecidableEq, Repr

/-- A transaction as used by the block detail page: it carries its blobs. -/
structure Transaction where
  blobs : List Blob
  deriving DecidableEq, Repr

/-- `GAS_PER_BLOB` constant (2^17). -/
def GAS_PER_BLOB : ℕ := 131072

/-- `totalBlockBlobSize` from the block detail page: a left fold over the
block's transactions, each contributing the left-folded sum of its blobs'
sizes. -/
def totalBlockBlobSize (txs : List Transaction) : ℕ :=
  txs.foldl
    (fun acc tx => acc + tx.blobs.foldl (fun blobAcc b => blobAcc + b.size) 0)
    0

/-- The blob count displayed next to the blob size:
`totalBlockBlobSize / GAS_PER_BLOB`, a JavaScript (exact rational) division. -/
def displayedBlobCount (txs : List Transaction) : ℚ :=
  (totalBlockBlobSize txs : ℚ) / (GAS_PER_BLOB : ℚ)

/-- The previous-block navigation href on the block detail page: present
exactly when `getFirstBlobNumber() < blockNumber`. `firstBlobNumber` stands
for `getFirstBlobNumber()`, whose value depends on the configured network. -/
def prevHref (firstBlobNumber blockNumber : ℕ) : Option String :=
  if firstBlobNumber < blockNumber then
    some ("/block_neighbor?blockNumber=" ++ toString blockNumber ++ "&direction=prev")
  else
    none

/-- The next-block navigation href on the block detail page: present exactly
when the latest block has loaded and `blockNumber < latestBlock.number`. -/
def nextHref (blockNumber : ℕ) (latestBlockNumber : Option ℕ) : Option String :=
  match latestBlockNumber with
  | none => none
  | some latest =>
      if blockNumber < latest then
        some ("/block_neighbor?blockNumber=" ++ toString blockNumber ++ "&direction=next")
      else
        none

end Blobscan.Page

namespace Blobscan.Engine

/-- A Storage Reference: durable proof that a specific backend holds a specific
blob. -/
structure StorageRef where
  blobId : String
  backend : String
  locator : String
  deriving DecidableEq, Repr

/-- Modelled from the spec: `upsertReference(blobIdentity, backendName, locator)`
is an idempotent write keyed by `(blob, backend)` — a duplicate write from a
re-processed job is a no-op if the reference already exists (idempotent upsert,
not a blind insert). (The reference-store implementation is not in the provided
sources.) -/
def upsertReference (refs : List StorageRef) (blobId backend locator : String) :
    List StorageRef :=
  if refs.any (fun r => r.blobId == blobId && r.backend == backend) then refs
  else refs ++ [{ blobId := blobId, backend := backend, locator := locator }]

/-- The uniqueness invariant on a reference set: no two entries share the same
`(blob, backend)` pair. -/
def uniquePerPair (refs : List StorageRef) : Prop :=
  refs.Pairwise (fun a b => ¬(a.blobId = b.blobId ∧ a.backend = b.backend))

instance : DecidablePred uniquePerPair := fun refs =>
  List.instDecidablePairwise refs

/-- Propagation Job states from the spec's state machine. -/
inductive JobState
  | queued
  | active
  | retrying
  | completed
  | failed
  deriving DecidableEq, Repr

/-- A Propagation Job entry in the queue, keyed by blob identity. -/
structure Job where
  blobId : String
  attempts : ℕ
  state : JobState
  deriving DecidableEq, Repr

/-- A job counts as pending while it is queued or active (or looping back into
`active` through `retrying`). -/
def JobState.isPending : JobState → Bool
  | JobState.queued => true
  | JobState.active => true
  | JobState.retrying => true
  | _ => false

/-- The durable Propagation Queue. -/
structure Queue where
  jobs : List Job
  deriving DecidableEq, Repr

/-- Modelled from the spec: `schedule(blobIdentity)` enqueues a Propagation Job
if one is not already queued or active for that identity; duplicate scheduling
collapses into the existing job. (The queue client is not in the provided
sources.) -/
def schedule (q : Queue) (blobId : String) : Queue :=
  if q.jobs.any (fun j => j.blobId == blobId && j.state.isPending) then q
  else { jobs := q.jobs ++ [{ blobId := blobId, attempts := 0, state := JobState.queued }] }

/-- The pending jobs held for a given blob identity. -/
def pendingJobsFor (q : Queue) (blobId : String) : List Job :=
  q.jobs.filter (fun j => j.blobId == blobId && j.state.isPending)

/-- The outcome of one backend's store attempt: a reference locator or a typed
failure — failures are data, not control flow. -/
inductive StoreOutcome
  | ref (locator : String)
  | failure (err : String)
  deriving DecidableEq, Repr

/-- Modelled from the spec: `storeToAll(blob, requiredSubset)` attempts to
store the blob to every backend in `requiredSubset` plus any best-effort
backends configured (i.e. every configured backend), returning a per-backend
outcome; it never raises for an individual backend failure, and the overall
call fails only if no backend could be attempted (empty configuration). The
per-backend result is supplied by `attempt`. -/
def storeToAll (bsm : BlobStorageManager) (_requiredSubset : List String)
    (attempt : BlobStorage → StoreOutcome) :
    Except String (List (String × StoreOutcome)) :=
  if bsm.storages.isEmpty then
    Except.error "no storages available"
  else
    Except.ok (bsm.storages.map (fun s => (s.name, attempt s)))

/-- Modelled from the spec: the retry delay for a given attempt count —
exponential backoff capped at a maximum delay. -/
def backoffDelay (baseDelay maxDelay attempt : ℕ) : ℕ :=
  min (baseDelay * 2 ^ attempt) maxDelay

/-- A Propagation Job as processed by the worker loop: the propagator tracks a
per-backend outcome (`done` lists the required backends that already hold a
reference), not a single pass/fail flag for the whole blob. -/
structure PropJob where
  blobId : String
  required : List String
  done : List String
  attempts : ℕ
  state : JobState
  deriving DecidableEq, Repr

/-- The backends a worker pass invokes for a job: the required backends that
do not yet hold a reference. Backends that already succeeded are skipped. -/
def PropJob.outstanding (j : PropJob) : List String :=
  j.required.filter (fun b => !(j.done.contains b))

/-- Whether a job has reached a terminal state. -/
def PropJob.isTerminal (j : PropJob) : Bool :=
  j.state == JobState.completed || j.state == JobState.failed

/-- Modelled from the spec: one worker pass over a job. It invokes every
outstanding required backend (backend `b` succeeds on this pass iff
`succeeds b j.attempts`), records references for the backends that succeeded,
and reconciles: `completed` when every required backend holds a reference,
`failed` when the attempt budget `maxAttempts` is exhausted, `retrying`
otherwise, incrementing the attempt count. -/
def runPass (succeeds : String → ℕ → Bool) (maxAttempts : ℕ) (j : PropJob) :
    PropJob :=
  let newDone := j.done ++ j.outstanding.filter (fun b => succeeds b j.attempts)
  if j.required.all (fun b => newDone.contains b) then
    { j with done := newDone, attempts := j.attempts + 1, state := JobState.completed }
  else if maxAttempts ≤ j.attempts + 1 then
    { j with done := newDone, attempts := j.attempts + 1, state := JobState.failed }
  else
    { j with done := newDone, attempts := j.attempts + 1, state := JobState.retrying }

/-- Run up to `n` worker passes over a job, stopping at a terminal state. -/
def runJob (succeeds : String → ℕ → Bool) (maxAttempts : ℕ) :
    ℕ → PropJob → PropJob
  | 0, j => j
  | n + 1, j =>
      if j.isTerminal then j
      else runJob succeeds maxAttempts n (runPass succeeds maxAttempts j)

/-- The freshly scheduled job for a blob with required backends A, B, C. -/
def initialJob (blobId : String) : PropJob :=
  { blobId := blobId, required := ["A", "B", "C"], done := [], attempts := 0,
    state := JobState.queued }

/-- The job for a blob with required backends A, B, C after A and C succeeded
and B is still outstanding, at attempt count `t`. -/
def midJob (blobId : String) (t : ℕ) (st : JobState) : PropJob :=
  { blobId := blobId, required := ["A", "B", "C"], done := ["A", "C"],
    attempts := t, state := st }

end Blobscan.Engine

namespace Blobscan.Page

lemma foldl_blob_sizes (l : List Blob) (a : ℕ) :
    l.foldl (fun blobAcc b => blobAcc + b.size) a = a + (l.map Blob.size).sum := by
  induction l generalizing a with
  | nil => simp
  | cons x xs ih => simp [List.foldl_cons, ih, add_assoc]

lemma foldl_tx_sizes (txs : List Transaction) (a : ℕ) :
    txs.foldl
        (fun acc tx => acc + tx.blobs.foldl (fun blobAcc b => blobAcc + b.size) 0)
        a
      = a + (txs.map (fun tx => (tx.blobs.map Blob.size).sum)).sum := by
  induction txs generalizing a with
  | nil => simp
  | cons t ts ih =>
      rw [List.foldl_cons, ih, foldl_blob_sizes]
      simp [add_assoc]

/-- C9: for every loaded block, the displayed total Blob Size equals the sum
over all of the block's transactions of the sum of the sizes of their blobs,
and the displayed blob count equals that total divided by `GAS_PER_BLOB`, so an
empty transaction list yields 0. -/
theorem totalBlockBlobSize_correct (txs : List Transaction) :
    totalBlockBlobSize txs
        = (txs.map (fun tx => (tx.blobs.map Blob.size).sum)).sum
      ∧ displayedBlobCount txs
          = (totalBlockBlobSize txs : ℚ) / (GAS_PER_BLOB : ℚ)
      ∧ displayedBlobCount [] = 0 := by
  refine ⟨?_, rfl, ?_⟩
  · simpa using foldl_tx_sizes txs 0
  · simp [displayedBlobCount, totalBlockBlobSize]

/-- C10: the previous-block navigation link is rendered iff
`getFirstBlobNumber() < blockNumber`, and the next-block link is rendered iff
the latest block has loaded and `blockNumber < latestBlock.number`; neither
link is offered at the respective boundary. -/
theorem navArrows_boundaries (f n : ℕ) (latest : Option ℕ) :
    ((prevHref f n).isSome ↔ f < n)
      ∧ ((nextHref n latest).isSome ↔ ∃ l, latest = some l ∧ n < l) := by
  constructor
  · unfold prevHref
    split <;> simp_all
  · cases latest with
    | none => simp [nextHref]
    | some l =>
        unfold nextHref
        split <;> simp_all

/-- C10 witness: concrete boundary evaluation. -/
theorem navArrows_boundaries_witness :
    ((Blobscan.Page.prevHref 5 7).isSome ↔ 5 < 7)
      ∧ ((Blobscan.Page.nextHref 7 (some 9)).isSome
          ↔ ∃ l, (some 9 : Option ℕ) = some l ∧ 7 < l) :=
  navArrows_boundaries 5 7 (some 9)

end Blobscan.Page

namespace Blobscan.Engine

/-- C6: retry delays are non-decreasing across attempts of a job and never
exceed the configured maximum delay. -/
theorem backoffDelay_monotone_bounded (baseDelay maxDelay a b : ℕ)
    (hab : a ≤ b) :
    backoffDelay baseDelay maxDelay a ≤ backoffDelay baseDelay maxDelay b
      ∧ backoffDelay baseDelay maxDelay a ≤ maxDelay := by
  constructor
  · exact min_le_min
      (Nat.mul_le_mul_left baseDelay (Nat.pow_le_pow_right (by norm_num) hab))
      le_rfl
  · exact min_le_right _ _

/-- C6 witness: concrete attempts 2 ≤ 3. -/
theorem backoffDelay_monotone_bounded_witness :
    backoffDelay 100 1000 2 ≤ backoffDelay 100 1000 3
      ∧ backoffDelay 100 1000 2 ≤ 1000 :=
  backoffDelay_monotone_bounded 100 1000 2 3 (by norm_num)

/-- C5: `storeToAll` never raises because an individual backend's store
failed — for every outcome function it returns one per-backend outcome for
each attempted backend, and the call as a whole fails exactly when no backend
could be attempted (the configured backend set is empty). -/
theorem storeToAll_isolates_failures (bsm : BlobStorageManager)
    (requiredSubset : List String) (attempt : BlobStorage → StoreOutcome)
    (hne : bsm.storages ≠ []) :
    (∃ outcomes, storeToAll bsm requiredSubset attempt = Except.ok outcomes
        ∧ outcomes.map Prod.fst = bsm.storages.map BlobStorage.name)
      ∧ ∀ requiredSubset' attempt',
          (∃ e, storeToAll bsm requiredSubset' attempt' = Except.error e)
            ↔ bsm.storages = [] := by
  constructor
  · refine ⟨bsm.storages.map (fun s => (s.name, attempt s)), ?_, ?_⟩
    · simp [storeToAll, List.isEmpty_iff, hne]
    · simp
  · intro rs at'
    unfold storeToAll
    split <;> simp_all [List.isEmpty_iff]

/-- C5 witness: a one-backend configuration where the backend fails. -/
theorem storeToAll_isolates_failures_witness :
    (∃ outcomes,
        storeToAll ⟨[⟨"S3"⟩]⟩ ["S3"] (fun _ => StoreOutcome.failure "timeout")
            = Except.ok outcomes
          ∧ outcomes.map Prod.fst
              = (⟨[⟨"S3"⟩]⟩ : BlobStorageManager).storages.map BlobStorage.name)
      ∧ ∀ rs at',
          (∃ e, storeToAll ⟨[⟨"S3"⟩]⟩ rs at' = Except.error e)
            ↔ (⟨[⟨"S3"⟩]⟩ : BlobStorageManager).storages = [] :=
  storeToAll_isolates_failures ⟨[⟨"S3"⟩]⟩ ["S3"]
    (fun _ => StoreOutcome.failure "timeout") (by simp)

end Blobscan.Engine

namespace Blobscan.Engine

/-- C1: re-running a backend write of an already-completed job is a no-op —
upserting the same `(blob, backend)` pair a second time leaves the reference
set unchanged — and upserts preserve the uniqueness invariant, so a blob's
reference list never contains two entries with the same backend. -/
theorem upsertReference_effective_once (refs : List StorageRef)
    (blobId backend loc loc' : String) (h : uniquePerPair refs) :
    upsertReference (upsertReference refs blobId backend loc) blobId backend loc'
        = upsertReference refs blobId backend loc
      ∧ uniquePerPair (upsertReference refs blobId backend loc) := by
  by_cases hany :
      refs.any (fun r => r.blobId == blobId && r.backend == backend) = true
  · constructor
    · simp [upsertReference, hany]
    · simpa [upsertReference, hany] using h
  · simp only [Bool.not_eq_true] at hany
    have hnotin : ∀ r ∈ refs, ¬(r.blobId = blobId ∧ r.backend = backend) := by
      intro r hr hc
      have : refs.any (fun r => r.blobId == blobId && r.backend == backend) = true :=
        List.any_eq_true.mpr ⟨r, hr, by simp [hc.1, hc.2]⟩
      simp [this] at hany
    have heq : upsertReference refs blobId backend loc
        = refs ++ [{ blobId := blobId, backend := backend, locator := loc }] := by
      simp [upsertReference, hany]
    constructor
    · simp [upsertReference, hany]
    · rw [heq]
      unfold uniquePerPair
      rw [List.pairwise_append]
      refine ⟨h, by simp, ?_⟩
      intro x hx y hy
      simp only [List.mem_singleton] at hy
      subst hy
      exact hnotin x hx

/-- C1 witness: a reference set with one entry for another backend. -/
theorem upsertReference_effective_once_witness :
    upsertReference
          (upsertReference [⟨"0xabc", "GCS", "g1"⟩] "0xabc" "S3" "s1")
          "0xabc" "S3" "s2"
        = upsertReference [⟨"0xabc", "GCS", "g1"⟩] "0xabc" "S3" "s1"
      ∧ uniquePerPair (upsertReference [⟨"0xabc", "GCS", "g1"⟩] "0xabc" "S3" "s1") :=
  upsertReference_effective_once [⟨"0xabc", "GCS", "g1"⟩] "0xabc" "S3" "s1" "s2"
    (by decide)

/-- C3: scheduling is idempotent — a second `schedule` for the same blob
identity while a job is pending changes nothing, and starting from a queue
with no pending job for that identity, exactly one pending job for it exists
after scheduling. -/
theorem schedule_idempotent (q : Queue) (blobId : String)
    (h : pendingJobsFor q blobId = []) :
    schedule (schedule q blobId) blobId = schedule q blobId
      ∧ (pendingJobsFor (schedule q blobId) blobId).length = 1 := by
  have hany : q.jobs.any (fun j => j.blobId == blobId && j.state.isPending) = false := by
    rw [List.any_eq_false]
    intro j hj hpj
    have : j ∈ pendingJobsFor q blobId := List.mem_filter.mpr ⟨hj, hpj⟩
    simp [h] at this
  have hsch : schedule q blobId
      = ⟨q.jobs ++ [{ blobId := blobId, attempts := 0, state := JobState.queued }]⟩ := by
    unfold schedule
    rw [hany]
    simp
  have hpend : pendingJobsFor (schedule q blobId) blobId
      = pendingJobsFor q blobId
          ++ [{ blobId := blobId, attempts := 0, state := JobState.queued }] := by
    rw [hsch]
    unfold pendingJobsFor
    dsimp only
    rw [List.filter_append]
    congr 1
    simp [JobState.isPending]
  constructor
  · rw [hsch]
    unfold schedule
    dsimp only
    rw [List.any_append, hany]
    simp [JobState.isPending]
  · rw [hpend, h]
    simp

/-- C3 witness: a queue holding an unrelated completed job. -/
theorem schedule_idempotent_witness :
    schedule (schedule ⟨[⟨"0xdef", 3, JobState.completed⟩]⟩ "0xabc") "0xabc"
        = schedule ⟨[⟨"0xdef", 3, JobState.completed⟩]⟩ "0xabc"
      ∧ (pendingJobsFor (schedule ⟨[⟨"0xdef", 3, JobState.completed⟩]⟩ "0xabc")
            "0xabc").length = 1 :=
  schedule_idempotent ⟨[⟨"0xdef", 3, JobState.completed⟩]⟩ "0xabc" (by decide)

end Blobscan.Engine

namespace Blobscan

lemma make_ok {bsm : BlobStorageManager} {tmp : String} {p : BlobPropagator}
    (h : BlobPropagator.make bsm tmp = Except.ok p) :
    p.blobStorageManager = bsm ∧ p.tmpBlobStorage = tmp
      ∧ bsm.storages.any (fun t => t.name == tmp) = true := by
  unfold BlobPropagator.make at h
  by_cases hc : bsm.storages.any (fun t => t.name == tmp) = true
  · rw [if_pos hc] at h
    cases h
    exact ⟨rfl, rfl, hc⟩
  · simp only [Bool.not_eq_true] at hc
    rw [hc] at h
    simp at h

lemma addStorage_ok {bsm bsm2 : BlobStorageManager} {s : BlobStorage}
    (h : bsm.addStorage s = Except.ok bsm2) :
    bsm.storages.any (fun t => t.name == s.name) = false
      ∧ bsm2 = ⟨bsm.storages ++ [s]⟩ := by
  unfold BlobStorageManager.addStorage at h
  by_cases hc : bsm.storages.any (fun t => t.name == s.name) = true
  · rw [if_pos hc] at h
    cases h
  · simp only [Bool.not_eq_true] at hc
    rw [hc] at h
    simp at h
    exact ⟨hc, h.symm⟩

/-- C8: `getBlobPropagator` is a memoised accessor — after a successful call
the module state holds the returned instance, and any further call returns
that identical instance with the state unchanged, regardless of the
environment, storage factory, or manager it is given (so the propagator is
constructed at most once). -/
theorem getBlobPropagator_memoised (st : Option BlobPropagator) (env : Env)
    (csfe : String → Except String (Option BlobStorage))
    (bsm : BlobStorageManager) (p : BlobPropagator) (st' : Option BlobPropagator)
    (h : getBlobPropagator st env csfe bsm = Except.ok (p, st')) :
    st' = some p
      ∧ ∀ env' csfe' bsm',
          getBlobPropagator st' env' csfe' bsm' = Except.ok (p, st') := by
  cases st with
  | some q =>
      simp only [getBlobPropagator, Except.ok.injEq, Prod.mk.injEq] at h
      obtain ⟨h1, h2⟩ := h
      subst h1
      subst h2
      exact ⟨rfl, fun env' csfe' bsm' => rfl⟩
  | none =>
      cases hc : createBlobPropagator env csfe bsm with
      | error e => simp [getBlobPropagator, hc] at h
      | ok r =>
          simp only [getBlobPropagator, hc, Except.ok.injEq, Prod.mk.injEq] at h
          obtain ⟨h1, h2⟩ := h
          subst h1
          subst h2
          exact ⟨rfl, fun env' csfe' bsm' => rfl⟩

/-- C8 witness: a process state that already holds a propagator. -/
theorem getBlobPropagator_memoised_witness :
    (some (⟨⟨[⟨"tmp"⟩]⟩, "tmp"⟩ : BlobPropagator)
        = some (⟨⟨[⟨"tmp"⟩]⟩, "tmp"⟩ : BlobPropagator))
      ∧ ∀ env' csfe' bsm',
          getBlobPropagator (some ⟨⟨[⟨"tmp"⟩]⟩, "tmp"⟩) env' csfe' bsm'
            = Except.ok (⟨⟨[⟨"tmp"⟩]⟩, "tmp"⟩, some ⟨⟨[⟨"tmp"⟩]⟩, "tmp"⟩) :=
  getBlobPropagator_memoised (some ⟨⟨[⟨"tmp"⟩]⟩, "tmp"⟩) ⟨"redis", "tmp"⟩
    (fun _ => Except.ok none) ⟨[]⟩ ⟨⟨[⟨"tmp"⟩]⟩, "tmp"⟩
    (some ⟨⟨[⟨"tmp"⟩]⟩, "tmp"⟩) rfl

end Blobscan

namespace Blobscan

lemma createBlobPropagator_ok_cases (env : Env)
    (csfe : String → Except String (Option BlobStorage))
    (bsm : BlobStorageManager) (p : BlobPropagator)
    (hok : createBlobPropagator env csfe bsm = Except.ok p) :
    BlobPropagator.make p.blobStorageManager env.BLOB_PROPAGATOR_TMP_BLOB_STORAGE
        = Except.ok p
      ∧ (p.blobStorageManager = bsm
          ∨ ∃ s, csfe env.BLOB_PROPAGATOR_TMP_BLOB_STORAGE = Except.ok (some s)
              ∧ bsm.addStorage s = Except.ok p.blobStorageManager) := by
  simp only [createBlobPropagator] at hok
  by_cases hc : (bsm.getAllStorages.find?
      (fun storage => storage.name == env.BLOB_PROPAGATOR_TMP_BLOB_STORAGE)).isSome = true
  · rw [if_pos hc] at hok
    have hm := make_ok hok
    rw [hm.1]
    exact ⟨hok, Or.inl rfl⟩
  · simp only [Bool.not_eq_true] at hc
    rw [hc] at hok
    simp only [Bool.false_eq_true, if_false] at hok
    cases hcs : csfe env.BLOB_PROPAGATOR_TMP_BLOB_STORAGE with
    | error e =>
        rw [hcs] at hok
        simp at hok
    | ok os =>
        rw [hcs] at hok
        cases os with
        | none =>
            simp only at hok
            have hm := make_ok hok
            rw [hm.1]
            exact ⟨hok, Or.inl rfl⟩
        | some s =>
            simp only at hok
            cases hadd : bsm.addStorage s with
            | error e =>
                rw [hadd] at hok
                simp at hok
            | ok bsm2 =>
                rw [hadd] at hok
                simp only at hok
                have hm := make_ok hok
                rw [hm.1]
                exact ⟨hok, Or.inr ⟨s, rfl, hadd⟩⟩

/-- C2: when the temporary backend is neither registered nor obtainable from
the environment (creation yields no storage or throws), `createBlobPropagator`
fails with an error; and whenever it does return a propagator, that
propagator's storage manager contains the temporary backend. -/
theorem createBlobPropagator_tmp_mandatory (env : Env)
    (csfe : String → Except String (Option BlobStorage))
    (bsm : BlobStorageManager) :
    ((∀ s ∈ bsm.storages, s.name ≠ env.BLOB_PROPAGATOR_TMP_BLOB_STORAGE) →
        (csfe env.BLOB_PROPAGATOR_TMP_BLOB_STORAGE = Except.ok none
          ∨ ∃ e, csfe env.BLOB_PROPAGATOR_TMP_BLOB_STORAGE = Except.error e) →
        ∃ e', createBlobPropagator env csfe bsm = Except.error e')
      ∧ ∀ p, createBlobPropagator env csfe bsm = Except.ok p →
          p.blobStorageManager.storages.any
              (fun t => t.name == env.BLOB_PROPAGATOR_TMP_BLOB_STORAGE) = true := by
  constructor
  · intro habs hcreate
    have hfn : bsm.getAllStorages.find?
        (fun storage => storage.name == env.BLOB_PROPAGATOR_TMP_BLOB_STORAGE) = none := by
      rw [List.find?_eq_none]
      intro s hs
      simpa using habs s hs
    have hfind : (bsm.getAllStorages.find?
        (fun storage => storage.name == env.BLOB_PROPAGATOR_TMP_BLOB_STORAGE)).isSome
          = false := by
      rw [hfn]
      rfl
    have hany : (bsm.storages.any
        (fun t => t.name == env.BLOB_PROPAGATOR_TMP_BLOB_STORAGE)) = false := by
      rw [List.any_eq_false]
      intro s hs
      simpa using habs s hs
    rcases hcreate with hnone | ⟨e, herr⟩
    · refine ⟨"Temporary blob storage not found: "
          ++ env.BLOB_PROPAGATOR_TMP_BLOB_STORAGE, ?_⟩
      simp only [createBlobPropagator, hfind, Bool.false_eq_true, if_false, hnone]
      unfold BlobPropagator.make
      rw [hany]
      simp
    · refine ⟨"Failed to create temporary blob storage: " ++ e, ?_⟩
      simp only [createBlobPropagator, hfind, Bool.false_eq_true, if_false, herr]
  · intro p hok
    have h := (createBlobPropagator_ok_cases env csfe bsm p hok).1
    exact (make_ok h).2.2

/-- C2 witness: an empty manager whose environment yields no temporary
storage makes `createBlobPropagator` fail. -/
theorem createBlobPropagator_tmp_mandatory_witness :
    ∃ e', createBlobPropagator ⟨"redis", "FILE_SYSTEM"⟩
        (fun _ => Except.ok none) ⟨[]⟩ = Except.error e' :=
  (createBlobPropagator_tmp_mandatory ⟨"redis", "FILE_SYSTEM"⟩
      (fun _ => Except.ok none) ⟨[]⟩).1
    (by simp) (Or.inl rfl)

/-- C7: registering a backend under a name already present in the active set
fails with a `ConfigurationError` (the set is unchanged since no new manager
is produced), and `createBlobPropagator`'s temporary-storage setup never adds
a second storage with the name of an already-registered one: distinctness of
backend names is preserved. -/
theorem addStorage_rejects_duplicate_names (bsm : BlobStorageManager)
    (s : BlobStorage) (env : Env)
    (csfe : String → Except String (Option BlobStorage))
    (bsm' : BlobStorageManager) (p : BlobPropagator)
    (hdup : bsm.storages.any (fun t => t.name == s.name) = true)
    (hnd : (bsm'.storages.map BlobStorage.name).Nodup)
    (hok : createBlobPropagator env csfe bsm' = Except.ok p) :
    bsm.addStorage s = Except.error "ConfigurationError"
      ∧ (p.blobStorageManager.storages.map BlobStorage.name).Nodup := by
  constructor
  · unfold BlobStorageManager.addStorage
    rw [if_pos hdup]
  · rcases (createBlobPropagator_ok_cases env csfe bsm' p hok).2 with heq | ⟨s', _, hadd⟩
    · rw [heq]
      exact hnd
    · obtain ⟨hfalse, hsm⟩ := addStorage_ok hadd
      rw [hsm]
      have hnotmem : s'.name ∉ bsm'.storages.map BlobStorage.name := by
        intro hmem
        obtain ⟨t, ht, hname⟩ := List.mem_map.mp hmem
        have := List.any_eq_false.mp hfalse t ht
        simp [hname] at this
      simp only [List.map_append, List.map_cons, List.map_nil]
      rw [List.nodup_append]
      refine ⟨hnd, List.nodup_singleton _, ?_⟩
      intro a ha hb
      simp only [List.mem_singleton] at hb
      subst hb
      exact hnotmem ha

/-- C7 witness: a duplicate registration of an S3 backend, alongside a
successful propagator creation that adds a fresh temporary backend. -/
theorem addStorage_rejects_duplicate_names_witness :
    BlobStorageManager.addStorage ⟨[⟨"S3"⟩]⟩ ⟨"S3"⟩
        = Except.error "ConfigurationError"
      ∧ (((⟨⟨[⟨"POSTGRES"⟩, ⟨"FILE_SYSTEM"⟩]⟩, "FILE_SYSTEM"⟩ :
            BlobPropagator)).blobStorageManager.storages.map
          BlobStorage.name).Nodup :=
  addStorage_rejects_duplicate_names ⟨[⟨"S3"⟩]⟩ ⟨"S3"⟩
    ⟨"redis", "FILE_SYSTEM"⟩ (fun n => Except.ok (some ⟨n⟩))
    ⟨[⟨"POSTGRES"⟩]⟩ ⟨⟨[⟨"POSTGRES"⟩, ⟨"FILE_SYSTEM"⟩]⟩, "FILE_SYSTEM"⟩
    (by decide) (by decide) (by rfl)

end Blobscan

namespace Blobscan.Engine

lemma runJob_zero (s : String → ℕ → Bool) (m : ℕ) (j : PropJob) :
    runJob s m 0 j = j := rfl

lemma runJob_of_terminal (s : String → ℕ → Bool) (m n : ℕ) (j : PropJob)
    (h : j.isTerminal = true) : runJob s m n j = j := by
  cases n with
  | zero => rfl
  | succ k =>
      unfold runJob
      rw [if_pos h]

lemma runJob_succ_of_not_terminal (s : String → ℕ → Bool) (m n : ℕ)
    (j : PropJob) (h : j.isTerminal = false) :
    runJob s m (n + 1) j = runJob s m n (runPass s m j) := by
  simp only [runJob, h]
  simp

lemma runJob_add (s : String → ℕ → Bool) (m a b : ℕ) (j : PropJob) :
    runJob s m (a + b) j = runJob s m b (runJob s m a j) := by
  induction a generalizing j with
  | zero => rw [Nat.zero_add, runJob_zero]
  | succ k ih =>
      by_cases h : j.isTerminal = true
      · rw [runJob_of_terminal s m (k + 1 + b) j h,
          runJob_of_terminal s m (k + 1) j h, runJob_of_terminal s m b j h]
      · have hb : j.isTerminal = false := by simpa using h
        have h1 : k + 1 + b = (k + b) + 1 := by omega
        rw [h1, runJob_succ_of_not_terminal s m (k + b) j hb,
          runJob_succ_of_not_terminal s m k j hb, ih]

lemma runPass_initial_Bsucc (s : String → ℕ → Bool) (m : ℕ) (b : String)
    (hA : s "A" 0 = true) (hC : s "C" 0 = true) (hB : s "B" 0 = true) :
    runPass s m (initialJob b)
      = ⟨b, ["A", "B", "C"], ["A", "B", "C"], 1, JobState.completed⟩ := by
  unfold runPass initialJob PropJob.outstanding
  simp [hA, hC, hB]

lemma runPass_initial_Bfail (s : String → ℕ → Bool) (m : ℕ) (b : String)
    (hA : s "A" 0 = true) (hC : s "C" 0 = true) (hB : s "B" 0 = false) :
    runPass s m (initialJob b)
      = if m ≤ 1 then midJob b 1 JobState.failed
        else midJob b 1 JobState.retrying := by
  unfold runPass initialJob PropJob.outstanding midJob
  simp [hA, hC, hB]

lemma runPass_mid_Bsucc (s : String → ℕ → Bool) (m : ℕ) (b : String) (t : ℕ)
    (st : JobState) (hB : s "B" t = true) :
    runPass s m (midJob b t st)
      = ⟨b, ["A", "B", "C"], ["A", "C", "B"], t + 1, JobState.completed⟩ := by
  unfold runPass midJob PropJob.outstanding
  simp [hB]

lemma runPass_mid_Bfail (s : String → ℕ → Bool) (m : ℕ) (b : String) (t : ℕ)
    (st : JobState) (hB : s "B" t = false) :
    runPass s m (midJob b t st)
      = if m ≤ t + 1 then midJob b (t + 1) JobState.failed
        else midJob b (t + 1) JobState.retrying := by
  unfold runPass midJob PropJob.outstanding
  simp [hB]

end Blobscan.Engine

namespace Blobscan.Engine

lemma midJob_retrying_not_terminal (b : String) (t : ℕ) :
    (midJob b t JobState.retrying).isTerminal = false := rfl

lemma initialJob_not_terminal (b : String) :
    (initialJob b).isTerminal = false := rfl

lemma midJob_failed_terminal (b : String) (t : ℕ) :
    (midJob b t JobState.failed).isTerminal = true := rfl

lemma runJob_mid_fail (s : String → ℕ → Bool) (m : ℕ) (b : String) :
    ∀ n t, 1 ≤ t → t < m → (∀ i, i < t + n → s "B" i = false) → t + n ≤ m →
      runJob s m n (midJob b t JobState.retrying)
        = if t + n < m then midJob b (t + n) JobState.retrying
          else midJob b m JobState.failed := by
  intro n
  induction n with
  | zero =>
      intro t h1 h2 _ _
      rw [Nat.add_zero, if_pos h2, runJob_zero]
  | succ k ih =>
      intro t h1 h2 hf h3
      rw [runJob_succ_of_not_terminal s m k _ (midJob_retrying_not_terminal b t),
        runPass_mid_Bfail s m b t _ (hf t (by omega))]
      by_cases hm1 : m ≤ t + 1
      · have hteq : t + 1 = m := by omega
        rw [if_pos hm1,
          runJob_of_terminal s m k _ (midJob_failed_terminal b (t + 1)),
          hteq, if_neg (by omega)]
      · rw [if_neg hm1,
          ih (t + 1) (by omega) (by omega) (fun i hi => hf i (by omega)) (by omega),
          show t + 1 + k = t + (k + 1) from by omega]

lemma runJob_initial_shape (s : String → ℕ → Bool) (m : ℕ) (b : String)
    (hA : s "A" 0 = true) (hC : s "C" 0 = true) :
    ∀ n, runJob s m n (initialJob b) = initialJob b
      ∨ (∃ t, runJob s m n (initialJob b) = midJob b t JobState.retrying)
      ∨ (runJob s m n (initialJob b)).state = JobState.completed
      ∨ (runJob s m n (initialJob b)).state = JobState.failed := by
  intro n
  induction n with
  | zero => exact Or.inl rfl
  | succ k ih =>
      rw [runJob_add s m k 1]
      rcases ih with h0 | ⟨t, hmid⟩ | hcomp | hfail
      · rw [h0, runJob_succ_of_not_terminal s m 0 (initialJob b)
            (initialJob_not_terminal b), runJob_zero]
        by_cases hB : s "B" 0 = true
        · rw [runPass_initial_Bsucc s m b hA hC hB]
          exact Or.inr (Or.inr (Or.inl rfl))
        · have hB' : s "B" 0 = false := by simpa using hB
          rw [runPass_initial_Bfail s m b hA hC hB']
          by_cases hm1 : m ≤ 1
          · rw [if_pos hm1]
            exact Or.inr (Or.inr (Or.inr rfl))
          · rw [if_neg hm1]
            exact Or.inr (Or.inl ⟨1, rfl⟩)
      · rw [hmid, runJob_succ_of_not_terminal s m 0 _
            (midJob_retrying_not_terminal b t), runJob_zero]
        by_cases hB : s "B" t = true
        · rw [runPass_mid_Bsucc s m b t _ hB]
          exact Or.inr (Or.inr (Or.inl rfl))
        · have hB' : s "B" t = false := by simpa using hB
          rw [runPass_mid_Bfail s m b t _ hB']
          by_cases hm1 : m ≤ t + 1
          · rw [if_pos hm1]
            exact Or.inr (Or.inr (Or.inr rfl))
          · rw [if_neg hm1]
            exact Or.inr (Or.inl ⟨t + 1, rfl⟩)
      · have hterm : (runJob s m k (initialJob b)).isTerminal = true := by
          unfold PropJob.isTerminal
          rw [hcomp]
          rfl
        rw [runJob_of_terminal s m 1 _ hterm]
        exact Or.inr (Or.inr (Or.inl hcomp))
      · have hterm : (runJob s m k (initialJob b)).isTerminal = true := by
          unfold PropJob.isTerminal
          rw [hfail]
          rfl
        rw [runJob_of_terminal s m 1 _ hterm]
        exact Or.inr (Or.inr (Or.inr hfail))

end Blobscan.Engine

namespace Blobscan.Engine

/-- C4: partial-failure isolation for a job with required backends A, B, C
where A and C succeed on the first attempt. Every pass from a `retrying`
state invokes only B (A and C are never re-invoked); if B fails every attempt
in the budget `m` the job ends `failed` with the A and C references present
and no B reference; if B first succeeds at attempt `k < m` the job ends
`completed` with all three references present. -/
theorem partial_failure_isolation (s : String → ℕ → Bool) (m : ℕ)
    (blobId : String) (hA : s "A" 0 = true) (hC : s "C" 0 = true)
    (hm : 1 ≤ m) :
    (∀ n, (runJob s m n (initialJob blobId)).state = JobState.retrying →
        (runJob s m n (initialJob blobId)).outstanding = ["B"])
      ∧ ((∀ i, i < m → s "B" i = false) →
          (runJob s m m (initialJob blobId)).state = JobState.failed
            ∧ "A" ∈ (runJob s m m (initialJob blobId)).done
            ∧ "C" ∈ (runJob s m m (initialJob blobId)).done
            ∧ "B" ∉ (runJob s m m (initialJob blobId)).done)
      ∧ ∀ k, k < m → s "B" k = true → (∀ i, i < k → s "B" i = false) →
          (runJob s m (k + 1) (initialJob blobId)).state = JobState.completed
            ∧ "A" ∈ (runJob s m (k + 1) (initialJob blobId)).done
            ∧ "B" ∈ (runJob s m (k + 1) (initialJob blobId)).done
            ∧ "C" ∈ (runJob s m (k + 1) (initialJob blobId)).done := by
  refine ⟨?_, ?_, ?_⟩
  · intro n hret
    rcases runJob_initial_shape s m blobId hA hC n with h0 | ⟨t, hmid⟩ | hcomp | hfail
    · rw [h0] at hret
      simp [initialJob] at hret
    · rw [hmid]
      rfl
    · rw [hcomp] at hret
      exact absurd hret (by decide)
    · rw [hfail] at hret
      exact absurd hret (by decide)
  · intro hBfail
    have hB0 : s "B" 0 = false := hBfail 0 (by omega)
    have hrun : runJob s m m (initialJob blobId) = midJob blobId m JobState.failed := by
      by_cases hm1 : m ≤ 1
      · have hm' : m = 1 := by omega
        subst hm'
        rw [runJob_succ_of_not_terminal s 1 0 (initialJob blobId)
            (initialJob_not_terminal blobId), runJob_zero,
          runPass_initial_Bfail s 1 blobId hA hC hB0, if_pos (by omega)]
      · have h1 : runJob s m 1 (initialJob blobId) = midJob blobId 1 JobState.retrying := by
          rw [runJob_succ_of_not_terminal s m 0 (initialJob blobId)
              (initialJob_not_terminal blobId), runJob_zero,
            runPass_initial_Bfail s m blobId hA hC hB0, if_neg hm1]
        have hsplit := runJob_add s m 1 (m - 1) (initialJob blobId)
        rw [show 1 + (m - 1) = m from by omega] at hsplit
        rw [hsplit, h1,
          runJob_mid_fail s m blobId (m - 1) 1 (by omega) (by omega)
            (fun i hi => hBfail i (by omega)) (by omega),
          if_neg (by omega)]
    rw [hrun]
    refine ⟨rfl, by simp [midJob], by simp [midJob], by simp [midJob]⟩
  · intro k hk hBk hprev
    rcases Nat.eq_zero_or_pos k with hk0 | hkpos
    · subst hk0
      have hrun : runJob s m 1 (initialJob blobId)
          = ⟨blobId, ["A", "B", "C"], ["A", "B", "C"], 1, JobState.completed⟩ := by
        rw [runJob_succ_of_not_terminal s m 0 (initialJob blobId)
            (initialJob_not_terminal blobId), runJob_zero,
          runPass_initial_Bsucc s m blobId hA hC hBk]
      rw [hrun]
      refine ⟨rfl, by simp, by simp, by simp⟩
    · have hB0 : s "B" 0 = false := hprev 0 (by omega)
      have h1 : runJob s m 1 (initialJob blobId) = midJob blobId 1 JobState.retrying := by
        rw [runJob_succ_of_not_terminal s m 0 (initialJob blobId)
            (initialJob_not_terminal blobId), runJob_zero,
          runPass_initial_Bfail s m blobId hA hC hB0, if_neg (by omega)]
      have h2 : runJob s m (k - 1) (midJob blobId 1 JobState.retrying)
          = midJob blobId k JobState.retrying := by
        rw [runJob_mid_fail s m blobId (k - 1) 1 (by omega) (by omega)
            (fun i hi => hprev i (by omega)) (by omega),
          show 1 + (k - 1) = k from by omega, if_pos hk]
      have h3 : runJob s m (k + 1) (initialJob blobId)
          = runJob s m 1 (runJob s m (k - 1) (runJob s m 1 (initialJob blobId))) := by
        conv_lhs => rw [show k + 1 = 1 + (k - 1) + 1 from by omega]
        rw [runJob_add s m (1 + (k - 1)) 1, runJob_add s m 1 (k - 1)]
      rw [h3, h1, h2,
        runJob_succ_of_not_terminal s m 0 (midJob blobId k JobState.retrying)
          (midJob_retrying_not_terminal blobId k), runJob_zero,
        runPass_mid_Bsucc s m blobId k _ hBk]
      refine ⟨rfl, by simp, by simp, by simp⟩

end Blobscan.Engine

namespace Blobscan.Engine

/-- C4 witness: A and C succeed at attempt 0, B first succeeds at attempt 2
within a budget of 3 — the job completes with all three references. -/
theorem partial_failure_isolation_witness :
    (runJob (fun b t => b == "A" || b == "C" || t == 2) 3 3
        (initialJob "0xabc")).state = JobState.completed
      ∧ "A" ∈ (runJob (fun b t => b == "A" || b == "C" || t == 2) 3 3
          (initialJob "0xabc")).done
      ∧ "B" ∈ (runJob (fun b t => b == "A" || b == "C" || t == 2) 3 3
          (initialJob "0xabc")).done
      ∧ "C" ∈ (runJob (fun b t => b == "A" || b == "C" || t == 2) 3 3
          (initialJob "0xabc")).done :=
  (partial_failure_isolation (fun b t => b == "A" || b == "C" || t == 2) 3
      "0xabc" (by decide) (by decide) (by decide)).2.2
    2 (by decide) (by decide) (by decide)

end Blobscan.Engine
